import Mathlib

/-!
Shallow embedding, in Lean, of the observability core of the olah caching
mirror server: the metrics aggregation engine (`olah/utils/metrics.py`) and
the cache inventory analyzer (`olah/utils/cache_stats.py`), together with
theorems settling the behavioural claims about them.

Modelling conventions:
* Python `datetime` timestamps are integers (seconds); `timedelta(minutes=w)`
  is `w * 60`, `timedelta(days=d)` is `d * 86400`.  Comparisons between
  datetimes become integer comparisons.
* Python floats are rationals (`ℚ`): the code only adds, divides and
  compares them, so the algorithmic content is preserved exactly.
* Python dicts built with `defaultdict` are total functions from the key
  type, the default value standing for an absent key.
* `collections.deque(maxlen = m)` with right-appends is a list (front =
  oldest) whose append drops from the front once the length passes `m`.
* Filesystem state is passed in explicitly (directory listings, stat
  results, file contents); a file that exists but cannot be decoded as
  UTF-8 text carries `none` as its content.
-/

/-- Pointwise update of a function-modelled dict: `f[k] = v`. -/
def updFn {α β : Type} [DecidableEq α] (f : α → β) (k : α) (v : β) : α → β :=
  fun x => if x = k then v else f x

/-- The last `n` elements of a list (Python `l[-n:]`, and the tail a
bounded deque keeps). -/
def lastN {α : Type} (n : Nat) (xs : List α) : List α :=
  xs.drop (xs.length - n)

/-- `collections.deque(maxlen := m).append x`: append on the right, evict
from the left while over capacity. -/
def dequeAppend {α : Type} (m : Nat) (xs : List α) (x : α) : List α :=
  let ys := xs ++ [x]
  if m < ys.length then ys.drop (ys.length - m) else ys

/-- Python `str.lower()` (character-wise). -/
def pyLower (s : String) : String :=
  ⟨s.data.map Char.toLower⟩

/-- Python `s[:n]` on a string. -/
def pyTake (n : Nat) (s : String) : String :=
  ⟨s.data.take n⟩

/-- Python `str.strip()`: whitespace removed from both ends. -/
def pyStrip (s : String) : String :=
  ⟨((s.data.dropWhile Char.isWhitespace).reverse.dropWhile Char.isWhitespace).reverse⟩

/-- Does `hay` start with `needle`? (helper for the substring test). -/
def startsWithChars : List Char → List Char → Bool
  | [], _ => true
  | _ :: _, [] => false
  | a :: as, b :: bs => a = b && startsWithChars as bs

/-- Python `needle in hay` on character lists. -/
def pyInChars (needle : List Char) : List Char → Bool
  | [] => needle.isEmpty
  | c :: rest => startsWithChars needle (c :: rest) || pyInChars needle rest

/-- Python `needle in hay` on strings. -/
def pyIn (needle hay : String) : Bool :=
  pyInChars needle.data hay.data

/-- Python `l[:n]` for an integer `n` (negative `n` keeps all but the last
`-n` elements). -/
def pySliceTo {α : Type} (n : Int) (xs : List α) : List α :=
  if 0 ≤ n then xs.take n.toNat else xs.take (xs.length - (-n).toNat)

/-- Insert for the stable insertion sort used to model `list.sort`. -/
def insertLe {α : Type} (le : α → α → Bool) (x : α) : List α → List α
  | [] => [x]
  | y :: ys => if le x y then x :: y :: ys else y :: insertLe le x ys

/-- Stable sort by a boolean `le`, modelling Python's stable `list.sort`. -/
def sortLe {α : Type} (le : α → α → Bool) : List α → List α
  | [] => []
  | x :: xs => insertLe le x (sortLe le xs)

/-! ## `olah/utils/metrics.py` -/

/-- `RequestMetrics`: metrics for one HTTP request. -/
structure RequestMetrics where
  method : String
  path : String
  status_code : Int
  response_time : ℚ
  bytes_sent : Int
  bytes_received : Int
  timestamp : Int
  deriving Repr, DecidableEq

/-- `SystemMetrics`: one periodic host-resource sample. -/
structure SystemMetrics where
  cpu_percent : ℚ
  memory_percent : ℚ
  disk_usage_percent : ℚ
  disk_read_bytes : Int
  disk_write_bytes : Int
  network_bytes_sent : Int
  network_bytes_received : Int
  timestamp : Int
  deriving Repr, DecidableEq

/-- The endpoint key the collector aggregates by: `f"{method} {path}"`. -/
def endpointKey (m : RequestMetrics) : String :=
  m.method ++ " " ++ m.path

/-- The mutable state of `MetricsCollector`.  The background sampling
thread and the lock are not part of the sequential state; histories are
lists with the oldest entry at the front. -/
structure MetricsCollector where
  max_history_size : Nat
  request_history : List RequestMetrics
  request_counts : String → Nat
  response_times : String → List ℚ
  bytes_transferred : String → Int
  system_history : List SystemMetrics
  cache_hit_count : Nat
  cache_miss_count : Nat
  total_requests : Nat

/-- `MetricsCollector.__init__(max_history_size)`: empty histories, all
counters zero. -/
def MetricsCollector.init (max_history_size : Nat) : MetricsCollector where
  max_history_size := max_history_size
  request_history := []
  request_counts := fun _ => 0
  response_times := fun _ => []
  bytes_transferred := fun _ => 0
  system_history := []
  cache_hit_count := 0
  cache_miss_count := 0
  total_requests := 0

/-- `MetricsCollector.record_request(metrics)`: append to the bounded
request history; bump the per-endpoint counter; trim the per-endpoint
response-time list to its last 500 entries when it is longer than 1000,
then append the new response time; add sent+received bytes to the
per-endpoint byte counter. -/
def record_request (c : MetricsCollector) (m : RequestMetrics) : MetricsCollector :=
  let e := endpointKey m
  let rts := c.response_times e
  let rts := if 1000 < rts.length then lastN 500 rts else rts
  { c with
    request_history := dequeAppend c.max_history_size c.request_history m
    request_counts := updFn c.request_counts e (c.request_counts e + 1)
    response_times := updFn c.response_times e (rts ++ [m.response_time])
    bytes_transferred :=
      updFn c.bytes_transferred e
        (c.bytes_transferred e + (m.bytes_sent + m.bytes_received)) }

/-- `MetricsCollector.record_cache_hit()`. -/
def record_cache_hit (c : MetricsCollector) : MetricsCollector :=
  { c with cache_hit_count := c.cache_hit_count + 1
           total_requests := c.total_requests + 1 }

/-- `MetricsCollector.record_cache_miss()`. -/
def record_cache_miss (c : MetricsCollector) : MetricsCollector :=
  { c with cache_miss_count := c.cache_miss_count + 1
           total_requests := c.total_requests + 1 }

/-- The tail of `_collect_system_metrics`: `self.system_history.append(m)`
into the deque created with `maxlen=1000`.  The psutil reads that build the
snapshot are outside the model; the snapshot is passed in. -/
def appendSystemSnapshot (c : MetricsCollector) (m : SystemMetrics) : MetricsCollector :=
  { c with system_history := dequeAppend 1000 c.system_history m }

/-- One cache hit / miss signal, for reasoning about arbitrary call
sequences. -/
inductive CacheOp where
  | hit
  | miss
  deriving Repr, DecidableEq

/-- Apply one cache signal to the collector. -/
def applyCacheOp (c : MetricsCollector) : CacheOp → MetricsCollector
  | .hit => record_cache_hit c
  | .miss => record_cache_miss c

/-- The dict `get_cache_stats` returns. -/
structure CacheStatsResult where
  total_requests : Nat
  cache_hits : Nat
  cache_misses : Nat
  hit_rate_percent : ℚ
  deriving Repr, DecidableEq

/-- `MetricsCollector.get_cache_stats()`. -/
def get_cache_stats (c : MetricsCollector) : CacheStatsResult where
  total_requests := c.total_requests
  cache_hits := c.cache_hit_count
  cache_misses := c.cache_miss_count
  hit_rate_percent :=
    if c.total_requests = 0 then 0
    else ((c.cache_hit_count : ℚ) / (c.total_requests : ℚ)) * 100

/-- One value of the per-endpoint dict in `get_request_stats`
(`{"count": ..., "avg_time": ..., "bytes": ...}`). -/
structure EndpointStats where
  count : Nat
  avg_time : ℚ
  bytes : Int
  deriving Repr, DecidableEq

/-- The dict `get_request_stats` returns; the two mappings are total
functions whose default values stand for keys absent from the dict. -/
structure RequestStatsResult where
  total_requests : Nat
  avg_response_time : ℚ
  total_bytes_transferred : Int
  status_codes : Int → Nat
  endpoints : String → EndpointStats

/-- `MetricsCollector.get_request_stats(time_window_minutes)`; `now` (the
value of `datetime.now()`) is passed explicitly.  The loops over
`recent_requests` become folds over the filtered history. -/
def get_request_stats (c : MetricsCollector) (now : Int)
    (time_window_minutes : Int) : RequestStatsResult :=
  let cutoff := now - time_window_minutes * 60
  let recent := c.request_history.filter (fun r => decide (cutoff ≤ r.timestamp))
  if recent.isEmpty then
    { total_requests := 0
      avg_response_time := 0
      total_bytes_transferred := 0
      status_codes := fun _ => 0
      endpoints := fun _ => ⟨0, 0, 0⟩ }
  else
    let total := recent.length
    let avg := recent.foldl (fun s r => s + r.response_time) 0 / (total : ℚ)
    let totalBytes := recent.foldl (fun s r => s + (r.bytes_sent + r.bytes_received)) 0
    let statusCodes :=
      recent.foldl (fun f r => updFn f r.status_code (f r.status_code + 1)) (fun _ => 0)
    let base :=
      recent.foldl
        (fun f r =>
          let e := endpointKey r
          updFn f e
            { count := (f e).count + 1
              avg_time := (f e).avg_time
              bytes := (f e).bytes + (r.bytes_sent + r.bytes_received) })
        (fun _ => (⟨0, 0, 0⟩ : EndpointStats))
    let endpoints := fun e =>
      let es := recent.filter (fun r => decide (endpointKey r = e))
      if es.isEmpty then base e
      else
        { base e with
          avg_time := es.foldl (fun s r => s + r.response_time) 0 / (es.length : ℚ) }
    { total_requests := total
      avg_response_time := avg
      total_bytes_transferred := totalBytes
      status_codes := statusCodes
      endpoints := endpoints }

/-- The dict `get_system_stats` returns (nested dicts flattened into named
fields). -/
structure SystemStatsResult where
  cpu_percent : ℚ
  memory_percent : ℚ
  disk_usage_percent : ℚ
  disk_read_bytes : Int
  disk_write_bytes : Int
  network_bytes_sent : Int
  network_bytes_received : Int
  deriving Repr, DecidableEq

/-- `MetricsCollector.get_system_stats()`: zeros when no snapshot exists,
otherwise the latest snapshot's disk/network fields and CPU/memory averaged
over `list(history)[-10:]`. -/
def get_system_stats (c : MetricsCollector) : SystemStatsResult :=
  match c.system_history.getLast? with
  | none =>
    { cpu_percent := 0, memory_percent := 0, disk_usage_percent := 0
      disk_read_bytes := 0, disk_write_bytes := 0
      network_bytes_sent := 0, network_bytes_received := 0 }
  | some latest =>
    let recent := lastN 10 c.system_history
    { cpu_percent := recent.foldl (fun s m => s + m.cpu_percent) 0 / (recent.length : ℚ)
      memory_percent := recent.foldl (fun s m => s + m.memory_percent) 0 / (recent.length : ℚ)
      disk_usage_percent := latest.disk_usage_percent
      disk_read_bytes := latest.disk_read_bytes
      disk_write_bytes := latest.disk_write_bytes
      network_bytes_sent := latest.network_bytes_sent
      network_bytes_received := latest.network_bytes_received }

/-! ## `olah/utils/cache_stats.py` -/

/-- One `<org>/<repo>` directory found under a category directory, with the
metadata the scanner reads from it.  `statOk` is whether `stat()` on the
directory succeeds (it is `false` only for a path the OS refuses to stat, in
which case `Path.exists()` also reports `false`).  `readmes` lists the files
present in the directory as `(name, content)`, `content = none` standing for
a file that exists but cannot be decoded as UTF-8 text. -/
structure RepoEntry where
  org : String
  repo : String
  size : Int
  mtime : Int
  atime : Int
  statOk : Bool
  fileCount : Nat
  readmes : List (String × Option String)
  deriving Repr, DecidableEq

/-- The on-disk cache tree seen by `CacheStats`: for each fixed category of
`self.cache_dirs`, `none` when the directory does not exist, otherwise the
`<org>/<repo>` directories found under it in enumeration order. -/
structure CacheTree where
  models : Option (List RepoEntry)
  datasets : Option (List RepoEntry)
  spaces : Option (List RepoEntry)
  files : Option (List RepoEntry)
  lfs : Option (List RepoEntry)
  deriving Repr, DecidableEq

/-- `self.cache_dirs.get(repo_type)`: `none` for a key outside the five
fixed categories, otherwise the category's directory state. -/
def cacheDirsGet (t : CacheTree) (repo_type : String) : Option (Option (List RepoEntry)) :=
  if repo_type = "models" then some t.models
  else if repo_type = "datasets" then some t.datasets
  else if repo_type = "spaces" then some t.spaces
  else if repo_type = "files" then some t.files
  else if repo_type = "lfs" then some t.lfs
  else none

/-- The dict `_get_repo_info` builds (`size_human`, `path` and `git_info`
carry no information the claims touch and are left out; `file_count` and
`description` are `none` exactly when the key is absent, i.e. when
`detailed=False`). -/
structure RepoInfo where
  repo_type : String
  org : String
  repo : String
  full_name : String
  size : Int
  last_modified : Int
  last_access : Int
  file_count : Option Nat
  description : Option String
  deriving Repr, DecidableEq

/-- `CacheStats._get_repo_description(repo_path)`: try the README variants
in order; a variant that does not exist, or whose read raises
`OSError`/`UnicodeDecodeError`, falls through to the next (`continue`);
the first readable one yields `content[:200].strip()`; otherwise `""`. -/
def get_repo_description_from (names : List String)
    (files : List (String × Option String)) : String :=
  match names with
  | [] => ""
  | n :: rest =>
    match files.lookup n with
    | some (some content) => pyStrip (pyTake 200 content)
    | some none => get_repo_description_from rest files
    | none => get_repo_description_from rest files

/-- The README variants checked, in order. -/
def readmeNames : List String :=
  ["README.md", "readme.md", "README.txt", "readme.txt"]

/-- `CacheStats._get_repo_description` proper. -/
def get_repo_description (files : List (String × Option String)) : String :=
  get_repo_description_from readmeNames files

/-- `CacheStats._get_repo_info(repo_type, org, repo, repo_path, detailed)`:
`none` when `stat()` raises, otherwise the info dict, with `file_count` and
`description` present only when `detailed` is set. -/
def get_repo_info (repo_type org repo : String) (e : RepoEntry)
    (detailed : Bool) : Option RepoInfo :=
  if e.statOk then
    some
      { repo_type := repo_type
        org := org
        repo := repo
        full_name := org ++ "/" ++ repo
        size := e.size
        last_modified := e.mtime
        last_access := e.atime
        file_count := if detailed then some e.fileCount else none
        description := if detailed then some (get_repo_description e.readmes) else none }
  else none

/-- The sort step of `get_cached_repos`: stable sort on the chosen key,
descending when `sort_order == "desc"`; an unknown `sort_by` leaves the
list unsorted. -/
def sortRepos (sort_by sort_order : String) (repos : List RepoInfo) : List RepoInfo :=
  let desc := sort_order = "desc"
  let byInt : (RepoInfo → Int) → List RepoInfo → List RepoInfo := fun k l =>
    sortLe (fun a b => if desc then decide (k b ≤ k a) else decide (k a ≤ k b)) l
  if sort_by = "size" then byInt (fun r => r.size) repos
  else if sort_by = "last_access" then byInt (fun r => r.last_access) repos
  else if sort_by = "last_modified" then byInt (fun r => r.last_modified) repos
  else if sort_by = "name" then
    sortLe
      (fun a b =>
        if desc then decide (b.full_name ≤ a.full_name)
        else decide (a.full_name ≤ b.full_name))
      repos
  else repos

/-- The enumeration step of `get_cached_repos`: for each requested category
whose directory exists, every `<org>/<repo>` directory's info record
(`detailed=False`), records whose `stat` fails being skipped. -/
def collectRepos (t : CacheTree) (repo_types : List String) : List RepoInfo :=
  repo_types.foldl
    (fun acc rt =>
      match cacheDirsGet t rt with
      | none => acc
      | some none => acc
      | some (some entries) =>
        acc ++ entries.filterMap (fun e => get_repo_info rt e.org e.repo e false))
    []

/-- `CacheStats.get_cached_repos(repo_type, limit, sort_by, sort_order)`.
`repo_type = none` (or the falsy empty string) scans models/datasets/spaces;
`limit` is applied through Python truthiness: `if limit:` skips the slice
exactly when `limit` is `None` or `0`. -/
def get_cached_repos (t : CacheTree) (repo_type : Option String)
    (limit : Option Int) (sort_by sort_order : String) : List RepoInfo :=
  let repo_types :=
    match repo_type with
    | some rt => if rt = "" then ["models", "datasets", "spaces"] else [rt]
    | none => ["models", "datasets", "spaces"]
  let repos := collectRepos t repo_types
  let sorted := sortRepos sort_by sort_order repos
  match limit with
  | none => sorted
  | some n => if n = 0 then sorted else pySliceTo n sorted

/-- `CacheStats.get_repo_details(repo_type, org, repo)`: `none` when the
category is unknown, its directory is missing, or the `<org>/<repo>` path
does not exist (`Path.exists()` is `false` both for an absent path and for
one whose `stat` fails); otherwise `_get_repo_info(..., detailed=True)`. -/
def get_repo_details (t : CacheTree) (repo_type org repo : String) : Option RepoInfo :=
  match cacheDirsGet t repo_type with
  | none => none
  | some none => none
  | some (some entries) =>
    match entries.find? (fun e => e.org = org && e.repo = repo) with
    | none => none
    | some e => if e.statOk then get_repo_info repo_type org repo e true else none

/-- `CacheStats.search_repos(query, repo_type)`: filter
`get_cached_repos(repo_type)` by a case-insensitive substring test of the
query against `repo["full_name"]` and `repo.get("description", "")`. -/
def search_repos (t : CacheTree) (query : String)
    (repo_type : Option String) : List RepoInfo :=
  let all := get_cached_repos t repo_type none "size" "desc"
  let ql := pyLower query
  all.filter
    (fun r =>
      pyIn ql (pyLower r.full_name) || pyIn ql (pyLower (r.description.getD "")))

/-- What `get_cache_efficiency` reads from one entry of
`self.cache_dirs.values()`: whether the directory exists, its recursive
byte size, its recursive file count, and the access times the per-file
`stat` loop collects (files whose `stat` raises are skipped, so at most one
access time per counted file). -/
structure CacheDirScan where
  dirPresent : Bool
  size : Int
  fileCount : Nat
  atimes : List Int
  deriving Repr, DecidableEq

/-- The dict `get_cache_efficiency` returns. -/
structure EfficiencyResult where
  total_size : Int
  total_files : Nat
  recent_access_count : Nat
  old_access_count : Nat
  access_efficiency : ℚ
  deriving Repr, DecidableEq

/-- `CacheStats.get_cache_efficiency()` over the scan results of the cache
directories; `now` (the value of `datetime.now()`) is passed explicitly.
Recent: `now - atime < timedelta(days=7)`; old: `now - atime >
timedelta(days=30)`; efficiency `recent / total_files * 100`, `0` when
`total_files` is zero. -/
def get_cache_efficiency (dirs : List CacheDirScan) (now : Int) : EfficiencyResult :=
  let existing := dirs.filter (fun d => d.dirPresent)
  let total_size := (existing.map (fun d => d.size)).sum
  let total_files := (existing.map (fun d => d.fileCount)).sum
  let access_times := (existing.map (fun d => d.atimes)).flatten
  let recent := (access_times.filter (fun a => decide (now - a < 7 * 86400))).length
  let old := (access_times.filter (fun a => decide (30 * 86400 < now - a))).length
  { total_size := total_size
    total_files := total_files
    recent_access_count := recent
    old_access_count := old
    access_efficiency :=
      if 0 < total_files then (recent : ℚ) / (total_files : ℚ) * 100 else 0 }

/-! ## General lemmas about the helpers -/

theorem lastN_length {α : Type} (n : Nat) (xs : List α) :
    (lastN n xs).length = min n xs.length := by
  simp [lastN]
  omega

theorem lastN_of_le {α : Type} (n : Nat) (xs : List α) (h : xs.length ≤ n) :
    lastN n xs = xs := by
  have : xs.length - n = 0 := by omega
  simp [lastN, this]

theorem dequeAppend_eq_lastN {α : Type} (m : Nat) (xs : List α) (x : α) :
    dequeAppend m xs x = lastN m (xs ++ [x]) := by
  simp only [dequeAppend, lastN]
  by_cases h : m < (xs ++ [x]).length
  · rw [if_pos h]
  · rw [if_neg h]
    have h0 : (xs ++ [x]).length - m = 0 := by
      simp only [not_lt] at h
      omega
    rw [h0, List.drop_zero]

theorem lastN_length_le {α : Type} (n : Nat) (xs : List α) :
    (lastN n xs).length ≤ n := by
  rw [lastN_length]
  omega

theorem dequeAppend_length_le {α : Type} (m : Nat) (xs : List α) (x : α) :
    (dequeAppend m xs x).length ≤ m ∨ (dequeAppend m xs x).length = xs.length + 1 := by
  rw [dequeAppend_eq_lastN, lastN_length]
  rw [List.length_append]
  simp only [List.length_singleton]
  omega

theorem lastN_lastN_append {α : Type} (m : Nat) (ys rest : List α) :
    lastN m (lastN m ys ++ rest) = lastN m (ys ++ rest) := by
  by_cases h : ys.length ≤ m
  · rw [lastN_of_le m ys h]
  · simp only [lastN]
    have hys : m ≤ ys.length := by omega
    have hlen : (ys.drop (ys.length - m)).length = m := by
      rw [List.length_drop]
      omega
    have hL : (ys.drop (ys.length - m) ++ rest).length - m = rest.length := by
      rw [List.length_append, hlen]
      omega
    have hR : (ys ++ rest).length - m = ys.length - m + rest.length := by
      rw [List.length_append]
      omega
    rw [hL, hR, List.drop_append_eq_append_drop, List.drop_append_eq_append_drop,
        List.drop_drop, hlen]
    congr 2
    omega

theorem foldl_dequeAppend {α : Type} (m : Nat) :
    ∀ (ms : List α) (acc : List α), acc.length ≤ m →
      ms.foldl (dequeAppend m) acc = lastN m (acc ++ ms) := by
  intro ms
  induction ms with
  | nil =>
    intro acc h
    simp [lastN_of_le m acc h]
  | cons x rest ih =>
    intro acc h
    have hstep : dequeAppend m acc x = lastN m (acc ++ [x]) :=
      dequeAppend_eq_lastN m acc x
    have hle : (dequeAppend m acc x).length ≤ m := by
      rw [hstep]
      exact lastN_length_le m _
    calc (x :: rest).foldl (dequeAppend m) acc
        = rest.foldl (dequeAppend m) (dequeAppend m acc x) := rfl
      _ = lastN m (dequeAppend m acc x ++ rest) := ih _ hle
      _ = lastN m (lastN m (acc ++ [x]) ++ rest) := by rw [hstep]
      _ = lastN m ((acc ++ [x]) ++ rest) := lastN_lastN_append m _ _
      _ = lastN m (acc ++ x :: rest) := by simp

theorem lastN_getLast? {α : Type} (n : Nat) (xs : List α) (hn : 0 < n)
    (hxs : xs ≠ []) : (lastN n xs).getLast? = xs.getLast? := by
  unfold lastN
  conv_rhs => rw [← List.take_append_drop (xs.length - n) xs]
  rw [List.getLast?_append_of_ne_nil]
  intro h
  have := congrArg List.length h
  simp at this
  have hx : 0 < xs.length := List.length_pos.mpr hxs
  omega

/-- Sum-accumulating folds are the sum of the mapped list. -/
theorem foldl_add_map {α : Type} {M : Type} [AddCommMonoid M] (g : α → M) :
    ∀ (l : List α) (i : M), l.foldl (fun s r => s + g r) i = i + (l.map g).sum := by
  intro l
  induction l with
  | nil => intro i; simp
  | cons x rest ih =>
    intro i
    simp [ih, add_assoc]

/-- Counting folds over a function-modelled `defaultdict(int)` count the
matching entries. -/
theorem foldl_count {α κ : Type} [DecidableEq κ] (key : α → κ) :
    ∀ (l : List α) (f : κ → Nat) (k : κ),
      (l.foldl (fun f r => updFn f (key r) (f (key r) + 1)) f) k
        = f k + (l.filter (fun r => decide (key r = k))).length := by
  intro l
  induction l with
  | nil => intro f k; simp
  | cons x rest ih =>
    intro f k
    rw [List.foldl_cons, ih]
    by_cases hx : key x = k
    · subst hx
      simp [updFn, List.filter_cons]
      omega
    · have hk : ¬k = key x := fun hk => hx hk.symm
      simp [updFn, hx, hk, List.filter_cons]

/-! ## Lemmas about the collector -/

theorem foldl_record_request_history (ms : List RequestMetrics) :
    ∀ c : MetricsCollector,
      (ms.foldl record_request c).request_history
        = ms.foldl (dequeAppend c.max_history_size) c.request_history := by
  induction ms with
  | nil => intro c; rfl
  | cons m rest ih =>
    intro c
    rw [List.foldl_cons, List.foldl_cons, ih]
    rfl

theorem foldl_appendSystemSnapshot_history (ss : List SystemMetrics) :
    ∀ c : MetricsCollector,
      (ss.foldl appendSystemSnapshot c).system_history
        = ss.foldl (dequeAppend 1000) c.system_history := by
  induction ss with
  | nil => intro c; rfl
  | cons m rest ih =>
    intro c
    rw [List.foldl_cons, List.foldl_cons, ih]
    rfl

theorem foldl_cacheOps_invariant (ops : List CacheOp) :
    ∀ c : MetricsCollector,
      c.total_requests = c.cache_hit_count + c.cache_miss_count →
      (ops.foldl applyCacheOp c).total_requests
        = (ops.foldl applyCacheOp c).cache_hit_count
          + (ops.foldl applyCacheOp c).cache_miss_count := by
  induction ops with
  | nil => intro c h; exact h
  | cons op rest ih =>
    intro c h
    rw [List.foldl_cons]
    apply ih
    cases op <;> simp [applyCacheOp, record_cache_hit, record_cache_miss] <;> omega

/-! ## Claims about the metrics collector -/

/-- C1.  Over every sequence of `record_cache_hit` / `record_cache_miss`
calls on a fresh collector, `get_cache_stats` reports
`total_requests = cache_hits + cache_misses`, a hit rate of
`cache_hits / total_requests * 100` when `total_requests > 0`, and a hit
rate of `0` when `total_requests = 0` (the division is never taken with a
zero denominator). -/
theorem cache_stats_counter_invariant (ops : List CacheOp) (cap : Nat) :
    let s := get_cache_stats (ops.foldl applyCacheOp (MetricsCollector.init cap))
    s.total_requests = s.cache_hits + s.cache_misses ∧
    (0 < s.total_requests →
      s.hit_rate_percent = (s.cache_hits : ℚ) / (s.total_requests : ℚ) * 100) ∧
    (s.total_requests = 0 → s.hit_rate_percent = 0) := by
  intro s
  have hinv : s.total_requests = s.cache_hits + s.cache_misses :=
    foldl_cacheOps_invariant ops (MetricsCollector.init cap) rfl
  refine ⟨hinv, ?_, ?_⟩
  · intro hpos
    have hne : (ops.foldl applyCacheOp (MetricsCollector.init cap)).total_requests ≠ 0 :=
      Nat.pos_iff_ne_zero.mp hpos
    simp only [s, get_cache_stats, hne, if_false]
  · intro hz
    simp only [s, get_cache_stats] at hz ⊢
    simp [hz]

/-- C1 witness: three hits and one miss. -/
theorem cache_stats_counter_invariant_witness :
    let s := get_cache_stats
      ([CacheOp.hit, CacheOp.hit, CacheOp.miss, CacheOp.hit].foldl applyCacheOp
        (MetricsCollector.init 10000))
    s.total_requests = s.cache_hits + s.cache_misses ∧
    s.hit_rate_percent = 75 := by
  have h := cache_stats_counter_invariant
    [CacheOp.hit, CacheOp.hit, CacheOp.miss, CacheOp.hit] 10000
  refine ⟨h.1, ?_⟩
  have := h.2.1 (by decide)
  rw [this]
  norm_num [get_cache_stats, applyCacheOp, record_cache_hit, record_cache_miss,
    MetricsCollector.init]

/-- C2.  After recording any list of request metrics into a fresh collector
with request-history capacity `cap`, the request history is exactly the
last `cap` recorded metrics in insertion order — hence its length is
`min N cap`, the oldest entries are the evicted ones, and the final entry
is the last one inserted; the snapshot history obeys the same law with its
own fixed capacity 1000. -/
theorem history_capacity_bound (cap : Nat) (ms : List RequestMetrics)
    (ss : List SystemMetrics) :
    let creq := ms.foldl record_request (MetricsCollector.init cap)
    let csys := ss.foldl appendSystemSnapshot (MetricsCollector.init cap)
    creq.request_history = lastN cap ms ∧
    creq.request_history.length = min ms.length cap ∧
    (0 < cap → ms ≠ [] → creq.request_history.getLast? = ms.getLast?) ∧
    csys.system_history = lastN 1000 ss ∧
    csys.system_history.length = min ss.length 1000 ∧
    (ss ≠ [] → csys.system_history.getLast? = ss.getLast?) := by
  intro creq csys
  have hreq : creq.request_history = lastN cap ms := by
    show (ms.foldl record_request (MetricsCollector.init cap)).request_history = _
    rw [foldl_record_request_history]
    show ms.foldl (dequeAppend cap) [] = _
    rw [foldl_dequeAppend cap ms [] (by simp)]
    rfl
  have hsys : csys.system_history = lastN 1000 ss := by
    show (ss.foldl appendSystemSnapshot (MetricsCollector.init cap)).system_history = _
    rw [foldl_appendSystemSnapshot_history]
    show ss.foldl (dequeAppend 1000) [] = _
    rw [foldl_dequeAppend 1000 ss [] (by simp)]
    rfl
  refine ⟨hreq, ?_, ?_, hsys, ?_, ?_⟩
  · rw [hreq, lastN_length, Nat.min_comm]
  · intro hcap hne
    rw [hreq]
    exact lastN_getLast? cap ms hcap hne
  · rw [hsys, lastN_length, Nat.min_comm]
  · intro hne
    rw [hsys]
    exact lastN_getLast? 1000 ss (by omega) hne

/-- The response-time list `record_request` writes for the request's own
endpoint. -/
theorem record_request_rts_eq (c : MetricsCollector) (m : RequestMetrics) :
    (record_request c m).response_times (endpointKey m)
      = (if 1000 < (c.response_times (endpointKey m)).length
         then lastN 500 (c.response_times (endpointKey m))
         else c.response_times (endpointKey m)) ++ [m.response_time] := by
  simp [record_request, updFn]

theorem record_request_rts_bound_step (c : MetricsCollector) (m : RequestMetrics)
    (h : ∀ e, (c.response_times e).length ≤ 1001) (e : String) :
    ((record_request c m).response_times e).length ≤ 1001 := by
  by_cases he : e = endpointKey m
  · rw [he, record_request_rts_eq]
    by_cases h1000 : 1000 < (c.response_times (endpointKey m)).length
    · rw [if_pos h1000]
      have hl := lastN_length_le 500 (c.response_times (endpointKey m))
      simp only [List.length_append, List.length_singleton]
      omega
    · rw [if_neg h1000]
      have := h (endpointKey m)
      simp only [List.length_append, List.length_singleton]
      omega
  · simp only [record_request, updFn, if_neg he]
    exact h e

theorem foldl_record_request_rts_bound (ms : List RequestMetrics) :
    ∀ c : MetricsCollector, (∀ e, (c.response_times e).length ≤ 1001) →
      ∀ e, ((ms.foldl record_request c).response_times e).length ≤ 1001 := by
  induction ms with
  | nil => intro c h e; exact h e
  | cons m rest ih =>
    intro c h e
    rw [List.foldl_cons]
    exact ih (record_request c m) (record_request_rts_bound_step c m h) e

/-- C8.  One `record_request` call appends the response time to the
endpoint's response-time list, trimming the list to its most recent 500
entries first exactly when it held more than 1000; it bumps the endpoint's
request counter by one, adds `bytes_sent + bytes_received` to the
endpoint's byte counter, leaves every other endpoint untouched, and over
any call sequence on a fresh collector the per-endpoint response-time list
never exceeds 1001 entries.  (The Python method returns `None`; it is a
pure state transformer here.) -/
theorem record_request_endpoint_spec (c : MetricsCollector) (m : RequestMetrics)
    (ms : List RequestMetrics) (cap : Nat) :
    ((c.response_times (endpointKey m)).length ≤ 1000 →
      (record_request c m).response_times (endpointKey m)
        = c.response_times (endpointKey m) ++ [m.response_time]) ∧
    (1000 < (c.response_times (endpointKey m)).length →
      (record_request c m).response_times (endpointKey m)
        = lastN 500 (c.response_times (endpointKey m)) ++ [m.response_time]) ∧
    ((record_request c m).response_times (endpointKey m)).getLast?
      = some m.response_time ∧
    (record_request c m).request_counts (endpointKey m)
      = c.request_counts (endpointKey m) + 1 ∧
    (record_request c m).bytes_transferred (endpointKey m)
      = c.bytes_transferred (endpointKey m)
        + (m.bytes_sent + m.bytes_received) ∧
    (∀ e', e' ≠ endpointKey m →
      (record_request c m).response_times e' = c.response_times e' ∧
      (record_request c m).request_counts e' = c.request_counts e' ∧
      (record_request c m).bytes_transferred e' = c.bytes_transferred e') ∧
    (∀ e', ((ms.foldl record_request (MetricsCollector.init cap)).response_times e').length
      ≤ 1001) := by
  refine ⟨?_, ?_, ?_, ?_, ?_, ?_, ?_⟩
  · intro hle
    rw [record_request_rts_eq, if_neg (by omega)]
  · intro hgt
    rw [record_request_rts_eq, if_pos hgt]
  · rw [record_request_rts_eq, List.getLast?_append_of_ne_nil _ (by simp)]
    rfl
  · simp [record_request, updFn]
  · simp [record_request, updFn]
  · intro e' hne
    refine ⟨?_, ?_, ?_⟩ <;> simp [record_request, updFn, hne]
  · exact foldl_record_request_rts_bound ms (MetricsCollector.init cap)
      (fun _ => by simp [MetricsCollector.init])

/-- C8 witness: recording into a fresh collector appends the response time
and bumps the counters for the request's endpoint. -/
theorem record_request_endpoint_spec_witness :
    ((MetricsCollector.init 100).response_times "GET /a").length ≤ 1000 ∧
    (record_request (MetricsCollector.init 100)
        ⟨"GET", "/a", 200, 3, 7, 2, 50⟩).response_times "GET /a" = [3] ∧
    (record_request (MetricsCollector.init 100)
        ⟨"GET", "/a", 200, 3, 7, 2, 50⟩).request_counts "GET /a" = 1 ∧
    (record_request (MetricsCollector.init 100)
        ⟨"GET", "/a", 200, 3, 7, 2, 50⟩).bytes_transferred "GET /a" = 9 := by
  have h := record_request_endpoint_spec (MetricsCollector.init 100)
    ⟨"GET", "/a", 200, 3, 7, 2, 50⟩ [] 100
  have hkey : endpointKey (⟨"GET", "/a", 200, 3, 7, 2, 50⟩ : RequestMetrics)
      = "GET /a" := rfl
  refine ⟨by simp [MetricsCollector.init], ?_, ?_, ?_⟩
  · have h1 := h.1 (by simp [MetricsCollector.init])
    rw [hkey] at h1
    rw [h1]
    rfl
  · have h4 := h.2.2.2.1
    rw [hkey] at h4
    rw [h4]
    rfl
  · have h5 := h.2.2.2.2.1
    rw [hkey] at h5
    rw [h5]
    rfl

/-- Reduction of `get_system_stats` on a nonempty history. -/
theorem get_system_stats_some (c : MetricsCollector) (latest : SystemMetrics)
    (h : c.system_history.getLast? = some latest) :
    get_system_stats c =
      { cpu_percent :=
          (lastN 10 c.system_history).foldl (fun s m => s + m.cpu_percent) 0
            / ((lastN 10 c.system_history).length : ℚ)
        memory_percent :=
          (lastN 10 c.system_history).foldl (fun s m => s + m.memory_percent) 0
            / ((lastN 10 c.system_history).length : ℚ)
        disk_usage_percent := latest.disk_usage_percent
        disk_read_bytes := latest.disk_read_bytes
        disk_write_bytes := latest.disk_write_bytes
        network_bytes_sent := latest.network_bytes_sent
        network_bytes_received := latest.network_bytes_received } := by
  unfold get_system_stats
  rw [h]

/-- C7.  `get_system_stats` is all-zero on an empty snapshot history;
otherwise it copies the latest snapshot's disk and network fields verbatim
and averages the CPU and memory percentages over the most recent ten
snapshots (all of them when fewer than ten exist). -/
theorem system_stats_spec (c : MetricsCollector) :
    (c.system_history = [] →
      get_system_stats c = ⟨0, 0, 0, 0, 0, 0, 0⟩) ∧
    (∀ latest, c.system_history.getLast? = some latest →
      (get_system_stats c).disk_usage_percent = latest.disk_usage_percent ∧
      (get_system_stats c).disk_read_bytes = latest.disk_read_bytes ∧
      (get_system_stats c).disk_write_bytes = latest.disk_write_bytes ∧
      (get_system_stats c).network_bytes_sent = latest.network_bytes_sent ∧
      (get_system_stats c).network_bytes_received = latest.network_bytes_received ∧
      (get_system_stats c).cpu_percent
        = ((lastN 10 c.system_history).map SystemMetrics.cpu_percent).sum
            / ((lastN 10 c.system_history).length : ℚ) ∧
      (get_system_stats c).memory_percent
        = ((lastN 10 c.system_history).map SystemMetrics.memory_percent).sum
            / ((lastN 10 c.system_history).length : ℚ) ∧
      (lastN 10 c.system_history).length = min 10 c.system_history.length ∧
      (c.system_history.length ≤ 10 → lastN 10 c.system_history = c.system_history)) := by
  constructor
  · intro hnil
    unfold get_system_stats
    rw [hnil]
    rfl
  · intro latest hlast
    rw [get_system_stats_some c latest hlast]
    refine ⟨rfl, rfl, rfl, rfl, rfl, ?_, ?_, lastN_length 10 _,
      fun hle => lastN_of_le 10 _ hle⟩
    · rw [foldl_add_map SystemMetrics.cpu_percent, zero_add]
    · rw [foldl_add_map SystemMetrics.memory_percent, zero_add]

/-- C7 witness: a two-snapshot history averages CPU over both snapshots and
reports the second snapshot's I/O fields verbatim. -/
theorem system_stats_spec_witness :
    (get_system_stats
      ([⟨10, 20, 30, 1, 2, 3, 4, 100⟩, ⟨30, 40, 50, 5, 6, 7, 8, 105⟩].foldl
        appendSystemSnapshot (MetricsCollector.init 10000))).cpu_percent = 20 ∧
    (get_system_stats
      ([⟨10, 20, 30, 1, 2, 3, 4, 100⟩, ⟨30, 40, 50, 5, 6, 7, 8, 105⟩].foldl
        appendSystemSnapshot (MetricsCollector.init 10000))).disk_read_bytes = 5 ∧
    (get_system_stats
      ([⟨10, 20, 30, 1, 2, 3, 4, 100⟩, ⟨30, 40, 50, 5, 6, 7, 8, 105⟩].foldl
        appendSystemSnapshot (MetricsCollector.init 10000))).network_bytes_sent = 7 := by
  have h := system_stats_spec
    ([⟨10, 20, 30, 1, 2, 3, 4, 100⟩, ⟨30, 40, 50, 5, 6, 7, 8, 105⟩].foldl
      appendSystemSnapshot (MetricsCollector.init 10000))
  have hhist : ([(⟨10, 20, 30, 1, 2, 3, 4, 100⟩ : SystemMetrics),
      ⟨30, 40, 50, 5, 6, 7, 8, 105⟩].foldl appendSystemSnapshot
      (MetricsCollector.init 10000)).system_history
      = [⟨10, 20, 30, 1, 2, 3, 4, 100⟩, ⟨30, 40, 50, 5, 6, 7, 8, 105⟩] := by
    simp [appendSystemSnapshot, MetricsCollector.init, dequeAppend]
  have h2 := h.2 ⟨30, 40, 50, 5, 6, 7, 8, 105⟩ (by rw [hhist]; rfl)
  refine ⟨?_, h2.2.1, h2.2.2.2.1⟩
  rw [h2.2.2.2.2.2.1, hhist]
  norm_num [lastN]

/-- The first endpoint loop of `get_request_stats` (counts and bytes per
endpoint) computed in closed form. -/
theorem foldl_endpoint_base (l : List RequestMetrics) :
    ∀ (f : String → EndpointStats) (e : String),
      (l.foldl
        (fun f r =>
          updFn f (endpointKey r)
            { count := (f (endpointKey r)).count + 1
              avg_time := (f (endpointKey r)).avg_time
              bytes := (f (endpointKey r)).bytes + (r.bytes_sent + r.bytes_received) })
        f) e
      = { count := (f e).count + (l.filter (fun r => decide (endpointKey r = e))).length
          avg_time := (f e).avg_time
          bytes := (f e).bytes
            + ((l.filter (fun r => decide (endpointKey r = e))).map
                (fun r => r.bytes_sent + r.bytes_received)).sum } := by
  induction l with
  | nil => intro f e; simp
  | cons x rest ih =>
    intro f e
    rw [List.foldl_cons, ih]
    by_cases hx : endpointKey x = e
    · subst hx
      simp [updFn, List.filter_cons, EndpointStats.mk.injEq]
      omega
    · have hk : ¬e = endpointKey x := fun hk => hx hk.symm
      simp [updFn, List.filter_cons, hx, hk]

/-- The entries of the request history that qualify for a window of `W`
minutes ending at `now`: `req.timestamp >= cutoff`. -/
def qualifying (c : MetricsCollector) (now W : Int) : List RequestMetrics :=
  c.request_history.filter (fun r => decide (now - W * 60 ≤ r.timestamp))

/-- `get_request_stats` written over `qualifying` (pure unfolding). -/
theorem get_request_stats_eq (c : MetricsCollector) (now W : Int) :
    get_request_stats c now W =
      (if (qualifying c now W).isEmpty then
        { total_requests := 0, avg_response_time := 0, total_bytes_transferred := 0,
          status_codes := fun _ => 0, endpoints := fun _ => ⟨0, 0, 0⟩ }
      else
        { total_requests := (qualifying c now W).length
          avg_response_time :=
            (qualifying c now W).foldl (fun s r => s + r.response_time) 0
              / ((qualifying c now W).length : ℚ)
          total_bytes_transferred :=
            (qualifying c now W).foldl
              (fun s r => s + (r.bytes_sent + r.bytes_received)) 0
          status_codes :=
            (qualifying c now W).foldl
              (fun f r => updFn f r.status_code (f r.status_code + 1)) (fun _ => 0)
          endpoints := fun e =>
            let es := (qualifying c now W).filter (fun r => decide (endpointKey r = e))
            if es.isEmpty then
              ((qualifying c now W).foldl
                (fun f r =>
                  updFn f (endpointKey r)
                    { count := (f (endpointKey r)).count + 1
                      avg_time := (f (endpointKey r)).avg_time
                      bytes := (f (endpointKey r)).bytes
                        + (r.bytes_sent + r.bytes_received) })
                (fun _ => (⟨0, 0, 0⟩ : EndpointStats))) e
            else
              { (((qualifying c now W).foldl
                  (fun f r =>
                    updFn f (endpointKey r)
                      { count := (f (endpointKey r)).count + 1
                        avg_time := (f (endpointKey r)).avg_time
                        bytes := (f (endpointKey r)).bytes
                          + (r.bytes_sent + r.bytes_received) })
                  (fun _ => (⟨0, 0, 0⟩ : EndpointStats))) e : EndpointStats) with
                avg_time := es.foldl (fun s r => s + r.response_time) 0
                  / (es.length : ℚ) } }) := rfl

/-- C3.  `get_request_stats(W)` aggregates exactly the history entries with
`timestamp ≥ now − W` minutes: membership in the aggregated set is
characterised; an empty window yields the all-zero result (no division is
attempted); a nonempty window yields the count, the mean response time, the
summed sent+received bytes, the per-status-code counts, and per-endpoint
count / mean response time / byte totals of the qualifying entries. -/
theorem request_stats_window_spec (c : MetricsCollector) (now W : Int) :
    (∀ r, r ∈ qualifying c now W ↔
      r ∈ c.request_history ∧ now - W * 60 ≤ r.timestamp) ∧
    (qualifying c now W = [] →
      (get_request_stats c now W).total_requests = 0 ∧
      (get_request_stats c now W).avg_response_time = 0 ∧
      (get_request_stats c now W).total_bytes_transferred = 0 ∧
      (∀ code, (get_request_stats c now W).status_codes code = 0) ∧
      (∀ e, (get_request_stats c now W).endpoints e = ⟨0, 0, 0⟩)) ∧
    (qualifying c now W ≠ [] →
      (get_request_stats c now W).total_requests = (qualifying c now W).length ∧
      (get_request_stats c now W).avg_response_time
        = ((qualifying c now W).map RequestMetrics.response_time).sum
            / ((qualifying c now W).length : ℚ) ∧
      (get_request_stats c now W).total_bytes_transferred
        = ((qualifying c now W).map (fun r => r.bytes_sent + r.bytes_received)).sum ∧
      (∀ code, (get_request_stats c now W).status_codes code
        = ((qualifying c now W).filter (fun r => decide (r.status_code = code))).length) ∧
      (∀ e, (qualifying c now W).filter (fun r => decide (endpointKey r = e)) = [] →
        (get_request_stats c now W).endpoints e = ⟨0, 0, 0⟩) ∧
      (∀ e, (qualifying c now W).filter (fun r => decide (endpointKey r = e)) ≠ [] →
        (get_request_stats c now W).endpoints e
          = ⟨((qualifying c now W).filter (fun r => decide (endpointKey r = e))).length,
             (((qualifying c now W).filter (fun r => decide (endpointKey r = e))).map
                 RequestMetrics.response_time).sum
               / (((qualifying c now W).filter
                     (fun r => decide (endpointKey r = e))).length : ℚ),
             (((qualifying c now W).filter (fun r => decide (endpointKey r = e))).map
                 (fun r => r.bytes_sent + r.bytes_received)).sum⟩)) := by
  refine ⟨?_, ?_, ?_⟩
  · intro r
    simp [qualifying, List.mem_filter]
  · intro h
    rw [get_request_stats_eq, h]
    exact ⟨rfl, rfl, rfl, fun _ => rfl, fun _ => rfl⟩
  · intro h
    have hne : ¬((qualifying c now W).isEmpty = true) := by
      simpa [List.isEmpty_iff] using h
    rw [get_request_stats_eq, if_neg hne]
    refine ⟨rfl, ?_, ?_, ?_, ?_, ?_⟩
    · show (qualifying c now W).foldl (fun s r => s + r.response_time) 0
          / ((qualifying c now W).length : ℚ) = _
      rw [foldl_add_map RequestMetrics.response_time, zero_add]
    · show (qualifying c now W).foldl
          (fun s r => s + (r.bytes_sent + r.bytes_received)) 0 = _
      rw [foldl_add_map (fun r : RequestMetrics => r.bytes_sent + r.bytes_received),
        zero_add]
    · intro code
      show ((qualifying c now W).foldl
          (fun f r => updFn f r.status_code (f r.status_code + 1)) (fun _ => 0)) code = _
      have := foldl_count (fun r : RequestMetrics => r.status_code)
        (qualifying c now W) (fun _ => 0) code
      simpa using this
    · intro e he
      show (let es := (qualifying c now W).filter (fun r => decide (endpointKey r = e))
        if es.isEmpty then _ else _) = (⟨0, 0, 0⟩ : EndpointStats)
      simp only [he, List.isEmpty_nil, if_true]
      rw [foldl_endpoint_base]
      simp [he]
    · intro e he
      have hese : ¬(((qualifying c now W).filter
          (fun r => decide (endpointKey r = e))).isEmpty = true) := by
        simpa [List.isEmpty_iff] using he
      show (let es := (qualifying c now W).filter (fun r => decide (endpointKey r = e))
        if es.isEmpty then _ else _) = _
      simp only []
      rw [if_neg hese, foldl_endpoint_base]
      rw [foldl_add_map RequestMetrics.response_time, zero_add]
      simp

/-- C3 witness: a one-element history inside the window. -/
theorem request_stats_window_spec_witness :
    qualifying
      { MetricsCollector.init 100 with
        request_history := [⟨"GET", "/a", 200, 2, 10, 5, 1000⟩] } 1030 60 ≠ [] ∧
    (get_request_stats
      { MetricsCollector.init 100 with
        request_history := [⟨"GET", "/a", 200, 2, 10, 5, 1000⟩] } 1030 60).total_requests
      = 1 ∧
    (get_request_stats
      { MetricsCollector.init 100 with
        request_history := [⟨"GET", "/a", 200, 2, 10, 5, 1000⟩] } 1030 60).avg_response_time
      = 2 ∧
    (get_request_stats
      { MetricsCollector.init 100 with
        request_history := [⟨"GET", "/a", 200, 2, 10, 5, 1000⟩] } 1030 60).total_bytes_transferred
      = 15 ∧
    (get_request_stats
      { MetricsCollector.init 100 with
        request_history := [⟨"GET", "/a", 200, 2, 10, 5, 1000⟩] } 1030 60).status_codes 200
      = 1 := by
  have h := request_stats_window_spec
    { MetricsCollector.init 100 with
      request_history := [⟨"GET", "/a", 200, 2, 10, 5, 1000⟩] } 1030 60
  have hq : qualifying
      { MetricsCollector.init 100 with
        request_history := [⟨"GET", "/a", 200, 2, 10, 5, 1000⟩] } 1030 60
      = [⟨"GET", "/a", 200, 2, 10, 5, 1000⟩] := by
    simp [qualifying, MetricsCollector.init]
  have hne : qualifying
      { MetricsCollector.init 100 with
        request_history := [⟨"GET", "/a", 200, 2, 10, 5, 1000⟩] } 1030 60 ≠ [] := by
    rw [hq]
    simp
  have h3 := h.2.2 hne
  refine ⟨hne, ?_, ?_, ?_, ?_⟩
  · rw [h3.1, hq]
    rfl
  · rw [h3.2.1, hq]
    norm_num
  · rw [h3.2.2.1, hq]
    rfl
  · rw [h3.2.2.2.1 200, hq]
    rfl

/-- C2 witness: five recorded metrics with capacity 3 leave exactly the
last three, in order. -/
theorem history_capacity_bound_witness :
    (([⟨"GET", "/t0", 200, 1, 0, 0, 0⟩, ⟨"GET", "/t1", 200, 1, 0, 0, 1⟩,
       ⟨"GET", "/t2", 200, 1, 0, 0, 2⟩, ⟨"GET", "/t3", 200, 1, 0, 0, 3⟩,
       ⟨"GET", "/t4", 200, 1, 0, 0, 4⟩] : List RequestMetrics).foldl
        record_request (MetricsCollector.init 3)).request_history
      = [⟨"GET", "/t2", 200, 1, 0, 0, 2⟩, ⟨"GET", "/t3", 200, 1, 0, 0, 3⟩,
         ⟨"GET", "/t4", 200, 1, 0, 0, 4⟩] := by
  have h := history_capacity_bound 3
    [⟨"GET", "/t0", 200, 1, 0, 0, 0⟩, ⟨"GET", "/t1", 200, 1, 0, 0, 1⟩,
     ⟨"GET", "/t2", 200, 1, 0, 0, 2⟩, ⟨"GET", "/t3", 200, 1, 0, 0, 3⟩,
     ⟨"GET", "/t4", 200, 1, 0, 0, 4⟩] []
  rw [h.1]
  rfl

/-! ## Claims about the cache inventory -/

theorem get_repo_description_from_eq (names : List String)
    (files : List (String × Option String)) :
    get_repo_description_from names files
      = match names.findSome? (fun n => (files.lookup n).bind id) with
        | some content => pyStrip (pyTake 200 content)
        | none => "" := by
  induction names with
  | nil => rfl
  | cons n rest ih =>
    rw [List.findSome?_cons]
    cases hl : files.lookup n with
    | none =>
      simp only [get_repo_description_from, hl, Option.none_bind]
      exact ih
    | some c =>
      cases c with
      | none =>
        simp only [get_repo_description_from, hl, Option.some_bind, Option.bind,
          id_eq]
        exact ih
      | some content =>
        simp only [get_repo_description_from, hl]
        rfl

/-- C5 (amended).  The description is the whitespace-stripped first 200
characters of the first README variant — `README.md`, `readme.md`,
`README.txt`, `readme.txt`, in that order — that exists *and* decodes as
text; it is the empty string when no variant both exists and decodes.  (A
variant that exists but fails to decode is skipped, not terminal.) -/
theorem repo_description_first_decodable (files : List (String × Option String)) :
    get_repo_description files
      = match readmeNames.findSome? (fun n => (files.lookup n).bind id) with
        | some content => pyStrip (pyTake 200 content)
        | none => "" :=
  get_repo_description_from_eq readmeNames files

/-- C5 counterexample.  With an undecodable `README.md` and a readable
`readme.md` the code returns the latter's text, not `""` as the claim's
"first found variant" rule demands; and a decodable README whose 200-char
prefix carries surrounding whitespace is stripped, so the description is
not literally the first 200 characters. -/
theorem repo_description_decode_fallthrough :
    get_repo_description [("README.md", none), ("readme.md", some "hello")] = "hello" ∧
    "hello" ≠ "" ∧
    get_repo_description [("README.md", some " hi ")] = "hi" ∧
    pyTake 200 " hi " = " hi " ∧
    "hi" ≠ " hi " := by
  refine ⟨?_, by decide, ?_, by decide, by decide⟩ <;> rfl

/-- C9.  `get_repo_details` returns the not-found sentinel `none` — never an
error — when the repo type is unknown, when the category directory is
missing, and when the `<org>/<repo>` directory is absent; when the
directory exists (its path is found and statable) it returns the fully
populated detailed record. -/
theorem repo_details_not_found (t : CacheTree) (rt org repo : String) :
    (cacheDirsGet t rt = none → get_repo_details t rt org repo = none) ∧
    (cacheDirsGet t rt = some none → get_repo_details t rt org repo = none) ∧
    (∀ entries, cacheDirsGet t rt = some (some entries) →
      (entries.find? (fun e => e.org = org && e.repo = repo) = none →
        get_repo_details t rt org repo = none) ∧
      (∀ e, entries.find? (fun e => e.org = org && e.repo = repo) = some e →
        e.statOk = true →
        get_repo_details t rt org repo
          = some
            { repo_type := rt, org := org, repo := repo
              full_name := org ++ "/" ++ repo, size := e.size
              last_modified := e.mtime, last_access := e.atime
              file_count := some e.fileCount
              description := some (get_repo_description e.readmes) })) := by
  refine ⟨?_, ?_, ?_⟩
  · intro h
    simp [get_repo_details, h]
  · intro h
    simp [get_repo_details, h]
  · intro entries h
    constructor
    · intro hf
      simp [get_repo_details, h, hf]
    · intro e hf hst
      simp [get_repo_details, h, hf, hst, get_repo_info]

/-- C9 witness: on a one-repo tree, a wrong type, a missing category, a
missing repo and the present repo behave as stated. -/
theorem repo_details_not_found_witness :
    get_repo_details
      ⟨some [⟨"org", "m1", 4, 11, 12, true, 2, []⟩], none, none, none, none⟩
      "weights" "org" "m1" = none ∧
    get_repo_details
      ⟨some [⟨"org", "m1", 4, 11, 12, true, 2, []⟩], none, none, none, none⟩
      "datasets" "org" "m1" = none ∧
    get_repo_details
      ⟨some [⟨"org", "m1", 4, 11, 12, true, 2, []⟩], none, none, none, none⟩
      "models" "org" "nope" = none ∧
    get_repo_details
      ⟨some [⟨"org", "m1", 4, 11, 12, true, 2, []⟩], none, none, none, none⟩
      "models" "org" "m1"
      = some ⟨"models", "org", "m1", "org/m1", 4, 11, 12, some 2, some ""⟩ := by
  have h := repo_details_not_found
    ⟨some [⟨"org", "m1", 4, 11, 12, true, 2, []⟩], none, none, none, none⟩
    "models" "org" "m1"
  refine ⟨by rfl, by rfl, by rfl, ?_⟩
  have h4 := (h.2.2 [⟨"org", "m1", 4, 11, 12, true, 2, []⟩] (by rfl)).2
    ⟨"org", "m1", 4, 11, 12, true, 2, []⟩ (by rfl) (by rfl)
  rw [h4]
  rfl

/-- C10.  `get_cached_repos` with `limit = 0` applies no truncation (Python
`if limit:` treats `0` as falsy), returning the same list as `limit =
None`; for `limit ≥ 1` the sorted list is truncated to its first `limit`
entries. -/
theorem cached_repos_limit_spec (t : CacheTree) (rt : Option String)
    (sb so : String) :
    get_cached_repos t rt (some 0) sb so = get_cached_repos t rt none sb so ∧
    (∀ n : Int, 1 ≤ n →
      get_cached_repos t rt (some n) sb so
        = (get_cached_repos t rt none sb so).take n.toNat) := by
  constructor
  · simp [get_cached_repos]
  · intro n hn
    have h0 : ¬n = 0 := by omega
    have hpos : (0 : Int) ≤ n := by omega
    simp [get_cached_repos, h0, pySliceTo, hpos]

/-- C10 witness: a two-repo tree, limit 0 vs. limit 1. -/
theorem cached_repos_limit_spec_witness :
    get_cached_repos
      ⟨some [⟨"org", "test-a", 10, 1, 2, true, 1, []⟩,
             ⟨"org", "test-b", 20, 3, 4, true, 1, []⟩], none, none, none, none⟩
      none (some 0) "size" "desc"
      = get_cached_repos
        ⟨some [⟨"org", "test-a", 10, 1, 2, true, 1, []⟩,
               ⟨"org", "test-b", 20, 3, 4, true, 1, []⟩], none, none, none, none⟩
        none none "size" "desc" ∧
    get_cached_repos
      ⟨some [⟨"org", "test-a", 10, 1, 2, true, 1, []⟩,
             ⟨"org", "test-b", 20, 3, 4, true, 1, []⟩], none, none, none, none⟩
      none (some 1) "size" "desc"
      = [⟨"models", "org", "test-b", "org/test-b", 20, 3, 4, none, none⟩] := by
  have h := cached_repos_limit_spec
    ⟨some [⟨"org", "test-a", 10, 1, 2, true, 1, []⟩,
           ⟨"org", "test-b", 20, 3, 4, true, 1, []⟩], none, none, none, none⟩
    none "size" "desc"
  refine ⟨h.1, ?_⟩
  rw [h.2 1 (by norm_num)]
  rfl

theorem pyInChars_nil (hay : List Char) : pyInChars [] hay = true := by
  cases hay <;> simp [pyInChars, startsWithChars]

theorem insertLe_perm {α : Type} (le : α → α → Bool) (x : α) (l : List α) :
    (insertLe le x l).Perm (x :: l) := by
  induction l with
  | nil => exact List.Perm.refl _
  | cons y ys ih =>
    by_cases h : le x y
    · rw [insertLe, if_pos h]
    · rw [insertLe, if_neg h]
      exact (ih.cons y).trans (List.Perm.swap x y ys)

theorem sortLe_perm {α : Type} (le : α → α → Bool) (l : List α) :
    (sortLe le l).Perm l := by
  induction l with
  | nil => exact List.Perm.refl _
  | cons x xs ih =>
    exact (insertLe_perm le x (sortLe le xs)).trans (ih.cons x)

theorem mem_sortRepos {sb so : String} {l : List RepoInfo} {r : RepoInfo}
    (h : r ∈ sortRepos sb so l) : r ∈ l := by
  simp only [sortRepos] at h
  split_ifs at h <;>
    first
      | exact (sortLe_perm _ l).mem_iff.mp h
      | exact h

theorem collectRepos_description_none (rts : List String) (t : CacheTree) :
    ∀ r ∈ collectRepos t rts, r.description = none := by
  unfold collectRepos
  suffices hgen : ∀ (acc : List RepoInfo), (∀ r ∈ acc, r.description = none) →
      ∀ r ∈ rts.foldl
        (fun acc rt =>
          match cacheDirsGet t rt with
          | none => acc
          | some none => acc
          | some (some entries) =>
            acc ++ entries.filterMap (fun e => get_repo_info rt e.org e.repo e false))
        acc, r.description = none by
    exact hgen [] (by simp)
  induction rts with
  | nil => intro acc hacc r hr; exact hacc r hr
  | cons rt rest ih =>
    intro acc hacc r hr
    rw [List.foldl_cons] at hr
    refine ih _ ?_ r hr
    intro r' hr'
    cases hdir : cacheDirsGet t rt with
    | none =>
      rw [hdir] at hr'
      exact hacc r' hr'
    | some o =>
      cases o with
      | none =>
        rw [hdir] at hr'
        exact hacc r' hr'
      | some entries =>
        rw [hdir] at hr'
        rcases List.mem_append.mp hr' with hmem | hmem
        · exact hacc r' hmem
        · rcases List.mem_filterMap.mp hmem with ⟨e, _, he⟩
          unfold get_repo_info at he
          by_cases hst : e.statOk
          · rw [if_pos hst] at he
            cases he
            rfl
          · rw [if_neg hst] at he
            cases he

theorem get_cached_repos_description_none (t : CacheTree) (rt : Option String)
    (sb so : String) :
    ∀ r ∈ get_cached_repos t rt none sb so, r.description = none := by
  intro r hr
  unfold get_cached_repos at hr
  exact collectRepos_description_none _ t r (mem_sortRepos hr)

/-- C4 (amended).  `search_repos` returns exactly the repositories of
`get_cached_repos(repo_type)` whose full name `org/repo` contains the query
case-insensitively, in listing order and with no ranking.  The description
half of the disjunction in the code never matches, because listing records
are built with `detailed=False` and so carry no description; the
two-repository "test" fixture nevertheless behaves as the spec's example
says, both names containing the query. -/
theorem search_repos_name_match (t : CacheTree) (q : String) (rt : Option String) :
    search_repos t q rt
      = (get_cached_repos t rt none "size" "desc").filter
          (fun r => pyIn (pyLower q) (pyLower r.full_name)) ∧
    search_repos
      ⟨some [⟨"org", "test-a", 10, 1, 2, true, 1, []⟩,
             ⟨"org", "test-b", 20, 3, 4, true, 1, []⟩], none, none, none, none⟩
      "test" none
      = [⟨"models", "org", "test-b", "org/test-b", 20, 3, 4, none, none⟩,
         ⟨"models", "org", "test-a", "org/test-a", 10, 1, 2, none, none⟩] := by
  constructor
  · unfold search_repos
    apply List.filter_congr
    intro r hr
    rw [get_cached_repos_description_none t rt "size" "desc" r hr]
    show (pyIn (pyLower q) (pyLower r.full_name)
        || pyIn (pyLower q) (pyLower "")) = _
    cases hq : (pyLower q).data with
    | nil =>
      have h1 : pyIn (pyLower q) (pyLower r.full_name) = true := by
        unfold pyIn
        rw [hq]
        exact pyInChars_nil _
      have h2 : pyIn (pyLower q) (pyLower "") = true := by
        unfold pyIn
        rw [hq]
        exact pyInChars_nil _
      rw [h1, h2]
      rfl
    | cons ch rest =>
      have h2 : pyIn (pyLower q) (pyLower "") = false := by
        unfold pyIn
        rw [hq]
        rfl
      rw [h2, Bool.or_false]
  · rfl

/-- C4 counterexample.  A repository whose README (and hence the
description that `repo_details` reports) contains the query `"zzz"`, while
its name does not: the claim says search returns it, the code returns the
empty list, because listing records carry no description for the search to
inspect. -/
theorem search_repos_misses_description_match :
    search_repos
      ⟨some [⟨"org", "alpha", 5, 0, 0, true, 1, [("README.md", some "zzz model card")]⟩],
        none, none, none, none⟩ "zzz" none = [] ∧
    (get_repo_details
      ⟨some [⟨"org", "alpha", 5, 0, 0, true, 1, [("README.md", some "zzz model card")]⟩],
        none, none, none, none⟩ "models" "org" "alpha").isSome = true ∧
    pyIn (pyLower "zzz")
      (pyLower (((get_repo_details
        ⟨some [⟨"org", "alpha", 5, 0, 0, true, 1, [("README.md", some "zzz model card")]⟩],
          none, none, none, none⟩ "models" "org" "alpha").bind
            (fun r => r.description)).getD "")) = true := by
  refine ⟨?_, ?_, ?_⟩ <;> rfl

/-- The cache directories `get_cache_efficiency` actually visits. -/
def existingDirs (dirs : List CacheDirScan) : List CacheDirScan :=
  dirs.filter (fun d => d.dirPresent)

/-- All access times collected by the per-file stat loop. -/
def collectedAtimes (dirs : List CacheDirScan) : List Int :=
  ((existingDirs dirs).map (fun d => d.atimes)).flatten

/-- Files counted as recently accessed (within 7 days). -/
def recentCount (dirs : List CacheDirScan) (now : Int) : Nat :=
  ((collectedAtimes dirs).filter (fun a => decide (now - a < 7 * 86400))).length

/-- Files counted as stale (not accessed within 30 days). -/
def oldCount (dirs : List CacheDirScan) (now : Int) : Nat :=
  ((collectedAtimes dirs).filter (fun a => decide (30 * 86400 < now - a))).length

/-- The total file count summed over existing directories. -/
def totalFilesOf (dirs : List CacheDirScan) : Nat :=
  ((existingDirs dirs).map (fun d => d.fileCount)).sum

/-- Pure unfolding of `get_cache_efficiency`. -/
theorem get_cache_efficiency_eq (dirs : List CacheDirScan) (now : Int) :
    get_cache_efficiency dirs now =
      { total_size := ((existingDirs dirs).map (fun d => d.size)).sum
        total_files := totalFilesOf dirs
        recent_access_count := recentCount dirs now
        old_access_count := oldCount dirs now
        access_efficiency :=
          if 0 < totalFilesOf dirs then
            (recentCount dirs now : ℚ) / (totalFilesOf dirs : ℚ) * 100
          else 0 } := rfl

/-- C6.  `get_cache_efficiency` counts files accessed within the last 7
days and files not accessed within the last 30 days over every existing
cache directory; since each file contributes at most one collected access
time, the efficiency percentage `recent / total_files * 100` (0 when there
are no files) always lies in `[0, 100]`. -/
theorem cache_efficiency_bounds (dirs : List CacheDirScan) (now : Int)
    (h : ∀ d ∈ dirs, d.atimes.length ≤ d.fileCount) :
    (get_cache_efficiency dirs now).recent_access_count = recentCount dirs now ∧
    (get_cache_efficiency dirs now).old_access_count = oldCount dirs now ∧
    ((get_cache_efficiency dirs now).total_files = 0 →
      (get_cache_efficiency dirs now).access_efficiency = 0) ∧
    (0 < (get_cache_efficiency dirs now).total_files →
      (get_cache_efficiency dirs now).access_efficiency
        = ((get_cache_efficiency dirs now).recent_access_count : ℚ)
            / ((get_cache_efficiency dirs now).total_files : ℚ) * 100) ∧
    (get_cache_efficiency dirs now).recent_access_count
      ≤ (get_cache_efficiency dirs now).total_files ∧
    0 ≤ (get_cache_efficiency dirs now).access_efficiency ∧
    (get_cache_efficiency dirs now).access_efficiency ≤ 100 := by
  have hrt : recentCount dirs now ≤ totalFilesOf dirs := by
    calc recentCount dirs now
        ≤ (collectedAtimes dirs).length := List.length_filter_le _ _
      _ = (((existingDirs dirs).map (fun d => d.atimes)).map List.length).sum :=
          List.length_flatten _
      _ = ((existingDirs dirs).map (fun d => d.atimes.length)).sum := by
          rw [List.map_map]
          rfl
      _ ≤ ((existingDirs dirs).map (fun d => d.fileCount)).sum :=
          List.sum_le_sum (fun d hd => h d (List.mem_filter.mp hd).1)
  rw [get_cache_efficiency_eq]
  dsimp only
  refine ⟨rfl, rfl, ?_, ?_, hrt, ?_, ?_⟩
  · intro h0
    rw [if_neg (by omega)]
  · intro hpos
    rw [if_pos hpos]
  · by_cases hpos : 0 < totalFilesOf dirs
    · rw [if_pos hpos]
      have h1 : (0 : ℚ) ≤ (recentCount dirs now : ℚ) := by positivity
      have h2 : (0 : ℚ) ≤ (totalFilesOf dirs : ℚ) := by positivity
      exact mul_nonneg (div_nonneg h1 h2) (by norm_num)
    · rw [if_neg hpos]
  · by_cases hpos : 0 < totalFilesOf dirs
    · rw [if_pos hpos]
      have htQ : (0 : ℚ) < (totalFilesOf dirs : ℚ) := by exact_mod_cast hpos
      have hle1 : (recentCount dirs now : ℚ) / (totalFilesOf dirs : ℚ) ≤ 1 := by
        rw [div_le_one htQ]
        exact_mod_cast hrt
      calc (recentCount dirs now : ℚ) / (totalFilesOf dirs : ℚ) * 100
          ≤ 1 * 100 := mul_le_mul_of_nonneg_right hle1 (by norm_num)
        _ = 100 := by norm_num
    · rw [if_neg hpos]
      norm_num

/-- C6 witness: one existing directory, three files, two collected access
times inside the 7-day window: efficiency 200/3, inside `[0, 100]`. -/
theorem cache_efficiency_bounds_witness :
    (∀ d ∈ [(⟨true, 100, 3, [0, 10]⟩ : CacheDirScan)], d.atimes.length ≤ d.fileCount) ∧
    (get_cache_efficiency [⟨true, 100, 3, [0, 10]⟩] 5).recent_access_count = 2 ∧
    (get_cache_efficiency [⟨true, 100, 3, [0, 10]⟩] 5).access_efficiency = 200 / 3 ∧
    0 ≤ (get_cache_efficiency [⟨true, 100, 3, [0, 10]⟩] 5).access_efficiency ∧
    (get_cache_efficiency [⟨true, 100, 3, [0, 10]⟩] 5).access_efficiency ≤ 100 := by
  have h := cache_efficiency_bounds [⟨true, 100, 3, [0, 10]⟩] 5 (by decide)
  refine ⟨by decide, ?_, ?_, h.2.2.2.2.2.1, h.2.2.2.2.2.2⟩
  · rw [h.1]
    rfl
  · rw [h.2.2.2.1 (by rw [get_cache_efficiency_eq]; decide)]
    rw [get_cache_efficiency_eq]
    norm_num [recentCount, collectedAtimes, existingDirs, totalFilesOf]
